import Mathlib

/-!
# Verification of the gha workflow generator (shykes/gha)

Shallow embedding of the pipeline-to-workflow compiler: the `Gha` module,
its `Pipeline` rendering (`asWorkflow`, `checkoutStep`, `callDaggerStep`,
`workflowFilename`, `jobID`), trigger registration (`OnPush`), secret-name
validation (`validateSecretNames`, `checkSecretNames`) and config export
(`Gha.Config`, overlay semantics of `Directory.WithDirectory`).

Strings are modelled as Lean `String`/`List Char`. Go regular-expression
operations are modelled by the equivalent character-level list functions.
`strings.ToLower`/`ToUpper` are modelled on the ASCII range (the simple
per-rune case mapping used by Go agrees with this on every string that
appears in the module and in the claims). Serialization to YAML/JSON and
container I/O are plumbing and are not modelled; the exported directory is
modelled as the list of (path, workflow document) pairs in write order.
-/

/-! ## Character classes (from the Go regular expressions) -/

/-- Character class `[a-z0-9]` of the regexp in `workflowFilename`. -/
def isSlugChar (c : Char) : Bool :=
  (97 ≤ c.toNat && c.toNat ≤ 122) || (48 ≤ c.toNat && c.toNat ≤ 57)

/-- ASCII lower-case letter `[a-z]`. -/
def isLowerAZ (c : Char) : Bool := 97 ≤ c.toNat && c.toNat ≤ 122

/-- ASCII upper-case letter `[A-Z]`. -/
def isUpperAZ (c : Char) : Bool := 65 ≤ c.toNat && c.toNat ≤ 90

/-- ASCII digit `[0-9]`. -/
def isDigit09 (c : Char) : Bool := 48 ≤ c.toNat && c.toNat ≤ 57

/-- Character class `[a-zA-Z0-9]` (ASCII alphanumeric). -/
def isAlnumChar (c : Char) : Bool := isLowerAZ c || isUpperAZ c || isDigit09 c

/-- Character class `[a-zA-Z0-9_]` of the secret-name regexp. -/
def isSecretChar (c : Char) : Bool := isAlnumChar c || c = '_'

/-- Character class `[a-zA-Z0-9_-]` allowed in job IDs (`jobID`). -/
def isJobChar (c : Char) : Bool := isAlnumChar c || c = '_' || c = '-'

/-- Character class `[a-zA-Z_]` (job ID start, regexp `^[^a-zA-Z_]`). -/
def isJobStartChar (c : Char) : Bool := isLowerAZ c || isUpperAZ c || c = '_'

/-- Go `strings.ToLower`, per rune, restricted to the ASCII simple case
mapping (the only case mapping exercised by this module). -/
def goToLower (c : Char) : Char :=
  if isUpperAZ c then Char.ofNat (c.toNat + 32) else c

/-! ## `workflowFilename` (src/unnamed/part_003, lines 246-257)

```go
func (p *Pipeline) workflowFilename() string {
    var name string
    name = strings.ToLower(p.Name)
    re := regexp.MustCompile(`[^a-z0-9]+`)
    name = re.ReplaceAllString(name, "-")
    name = strings.Trim(name, "-")
    return name + ".yml"
}
```
The Go method reads only `p.Name`; it is modelled as a function of the name.
-/

/-- `re.ReplaceAllString(name, "-")` for `re = [^a-z0-9]+`: replace every
maximal run of non-`[a-z0-9]` characters by a single hyphen. The boolean
argument records whether the previous character was part of such a run
(so the run has already emitted its hyphen). -/
def collapseNonSlug : Bool → List Char → List Char
  | _, [] => []
  | prevRun, c :: rest =>
    if isSlugChar c then c :: collapseNonSlug false rest
    else if prevRun then collapseNonSlug true rest
    else '-' :: collapseNonSlug true rest

/-- The cutset of `strings.Trim(name, "-")`. -/
def isHyphen (c : Char) : Bool := c = '-'

/-- Drop the longest prefix of hyphens. -/
def dropLeadingHyphens (l : List Char) : List Char :=
  l.dropWhile isHyphen

/-- `strings.Trim(name, "-")`: drop leading and trailing hyphens. -/
def trimHyphens (l : List Char) : List Char :=
  (dropLeadingHyphens ((dropLeadingHyphens l).reverse)).reverse

/-- The sanitization pipeline of `workflowFilename` before the `.yml`
extension is appended: lowercase, collapse non-alphanumeric runs to single
hyphens, trim hyphens at both ends. -/
def slugify (name : String) : List Char :=
  trimHyphens (collapseNonSlug false (name.data.map goToLower))

/-- `workflowFilename`, as a function of the pipeline name. -/
def workflowFilename (name : String) : String :=
  String.mk (slugify name) ++ ".yml"

/-! ## `jobID` (src/unnamed/part_003, lines 259-278)

```go
func (p *Pipeline) jobID() string {
    allowedChars := regexp.MustCompile(`[^a-zA-Z0-9_-]`)
    startWithLetterOrUnderscore := regexp.MustCompile(`^[^a-zA-Z_]`)
    id := strings.ReplaceAll(p.Name, " ", "-")
    id = allowedChars.ReplaceAllString(id, "")
    if startWithLetterOrUnderscore.MatchString(id) {
        id = "_" + id
    }
    if len(id) > 99 {
        id = id[:99]
    }
    return id
}
```
After the filter every character is ASCII, so Go byte length and byte
slicing agree with character length and `List.take`.
-/

/-- `startWithLetterOrUnderscore.MatchString(id)`: the regexp `^[^a-zA-Z_]`
matches exactly the nonempty strings whose first character is outside
`[a-zA-Z_]` (it does not match the empty string). -/
def startViolation (l : List Char) : Bool :=
  match l with
  | [] => false
  | c :: _ => !isJobStartChar c

/-- `strings.ReplaceAll(p.Name, " ", "-")`. -/
def jobIDStep1 (name : String) : List Char :=
  name.data.map (fun c => if c = ' ' then '-' else c)

/-- `allowedChars.ReplaceAllString(id, "")`: remove all invalid characters. -/
def jobIDStep2 (name : String) : List Char :=
  (jobIDStep1 name).filter isJobChar

/-- Prefix `_` when the id does not start with a letter or underscore. -/
def jobIDStep3 (name : String) : List Char :=
  if startViolation (jobIDStep2 name) then '_' :: jobIDStep2 name
  else jobIDStep2 name

/-- `jobID`, as a function of the pipeline name: the steps above followed by
the truncation to 99 characters. -/
def jobID (name : String) : String :=
  if (jobIDStep3 name).length > 99 then String.mk ((jobIDStep3 name).take 99)
  else String.mk (jobIDStep3 name)

/-! ## Grammars from the specification (claim C2)

These two definitions follow the words of the spec, not the source: they
are the grammars `^[a-z0-9-]+\.yml$` and `^[A-Za-z_][A-Za-z0-9_-]\x7b0,98\x7d$`
that the sanitizer outputs are claimed to match.
-/

/-- Membership in the regular language `^[a-z0-9-]+\.yml$`. -/
def matchesFilenameGrammar (s : String) : Bool :=
  decide (5 ≤ s.data.length) &&
    (s.data.drop (s.data.length - 4) = ['.', 'y', 'm', 'l']) &&
    (s.data.take (s.data.length - 4)).all (fun c => isSlugChar c || c = '-')

/-- Membership in the regular language `^[A-Za-z_][A-Za-z0-9_-]\x7b0,98\x7d$`. -/
def matchesJobIDGrammar (s : String) : Bool :=
  match s.data with
  | [] => false
  | c :: rest => isJobStartChar c && rest.all isJobChar && decide (rest.length ≤ 98)

/-! ## Secret-name validation

`validateSecretNames` (src/unnamed/part_007, lines 173-181) and the
identical inline loop `checkSecretNames` (src/unnamed/part_003, lines
171-180) check each name against the regexp `^[a-zA-Z0-9_]+$` and return a
descriptive error for the first offender. `squote` is the ASCII apostrophe
used in that error message. -/

def squote : String := String.singleton (Char.ofNat 39)

/-- `^[a-zA-Z0-9_]+$`.MatchString: nonempty and every character in class. -/
def validSecretName (s : String) : Bool :=
  !s.data.isEmpty && s.data.all isSecretChar

/-- The error text built in `validateSecretNames`/`checkSecretNames`. -/
def secretNameErrorMsg (name : String) : String :=
  "invalid secret name: " ++ squote ++ name ++ squote ++
    " must contain only alphanumeric characters and underscores"

/-- `validateSecretNames` (src/unnamed/part_007): error on first invalid name. -/
def validateSecretNames : List String → Except String Unit
  | [] => Except.ok ()
  | s :: rest =>
    if validSecretName s then validateSecretNames rest
    else Except.error (secretNameErrorMsg s)

/-! ## Workflow document model (workflow structures in src/main.go, second
block: the `github.com/shykes/gha` version with job `Outputs` and step `ID`)

Step `With`/`Env` are Go maps built by keyed assignment; they are modelled
as `String → Option String` built by `envInsert`, so that a later insertion
of the same key overwrites an earlier one, exactly like Go map assignment.
Fields the generator never sets (`Needs`, `Strategy`, `TimeoutMinutes`,
job/workflow `Env`) are omitted from the model. -/

def EnvMap : Type := String → Option String

def emptyEnv : EnvMap := fun _ => none

def envInsert (k v : String) (m : EnvMap) : EnvMap :=
  fun q => if q = k then some v else m q

structure PushEvent where
  Branches : List String
  Tags : List String
  Paths : List String

structure PullRequestEvent where
  Types : List String
  Branches : List String
  Paths : List String

structure ScheduledEvent where
  Cron : String

structure DispatchInput where
  Description : String
  Required : Bool
  Default : String

structure WorkflowDispatchEvent where
  Inputs : Option (List (String × DispatchInput))

structure IssueCommentEvent where
  Types : List String

structure WorkflowTriggers where
  Push : Option PushEvent
  PullRequest : Option PullRequestEvent
  Schedule : List ScheduledEvent
  WorkflowDispatch : Option WorkflowDispatchEvent
  IssueComment : Option IssueCommentEvent

/-- The empty trigger set `WorkflowTriggers\x7b\x7d`. -/
def noTriggers : WorkflowTriggers :=
  { Push := none, PullRequest := none, Schedule := [],
    WorkflowDispatch := none, IssueComment := none }

structure JobStep where
  Name : String := ""
  ID : String := ""
  Uses : String := ""
  Run : String := ""
  With : EnvMap := emptyEnv
  Env : EnvMap := emptyEnv
  Shell : String := ""

structure Job where
  RunsOn : String
  Steps : List JobStep
  Outputs : List (String × String)

structure Workflow where
  Name : String
  On : WorkflowTriggers
  Jobs : List (String × Job)

/-! ## Settings and Pipeline (src/unnamed/part_003, lines 55-169) -/

structure Settings where
  PublicToken : String
  DaggerVersion : String
  NoTraces : Bool
  StopEngine : Bool
  AsJson : Bool
  Runner : String

structure Pipeline where
  Name : String
  Module : String
  Command : String
  Secrets : List String
  -- `nil` Go slice is `none`; a non-nil (possibly empty) slice is `some`.
  SparseCheckout : Option (List String)
  Settings : Settings

/-- `checkSecretNames` (src/unnamed/part_003, lines 171-180): the same loop
as `validateSecretNames`, over the pipeline secret list. -/
def Pipeline.checkSecretNames (p : Pipeline) : Except String Unit :=
  validateSecretNames p.Secrets

/-- `Pipeline.Check` (src/unnamed/part_003, lines 204-216): secret names
first, then the best-effort container execution of the command.
`commandCheck` stands for the outcome of that external
`checkCommandAndModule` call, which is container I/O and is not modelled. -/
def Pipeline.Check (p : Pipeline) (commandCheck : Except String Unit) :
    Except String Unit :=
  match p.checkSecretNames with
  | Except.error e => Except.error e
  | Except.ok _ => commandCheck

/-! ## Step construction (src/unnamed/part_003, lines 280-365)

`scripts` maps a module-source path such as `scripts/exec.sh` to the file
contents that `bashStep` embeds into the `run:` field (the contents are
repository files outside the claims; `bashStep` only forwards them). -/

/-- Go map-literal interpolation markers: `secretRef s` is the string
`$\x7b\x7b secrets.s \x7d\x7d` and `githubRef k` is `$\x7b\x7b github.k \x7d\x7d`. -/
def secretRef (name : String) : String :=
  "$\x7b\x7b secrets." ++ name ++ " \x7d\x7d"

def githubRef (key : String) : String :=
  "$\x7b\x7b github." ++ key ++ " \x7d\x7d"

/-- Go `strings.ToUpper`, per rune, restricted to the ASCII simple case
mapping (the github context keys it is applied to are all ASCII). -/
def goToUpper (c : Char) : Char :=
  if isLowerAZ c then Char.ofNat (c.toNat - 32) else c

def strToUpper (s : String) : String := String.mk (s.data.map goToUpper)

/-- `bashStep` (lines 346-365): step running the embedded script
`scripts/<id>.sh` with the given env. -/
def bashStep (scripts : String → String) (id : String) (env : EnvMap) : JobStep :=
  { Name := "scripts/" ++ id ++ ".sh", ID := id, Shell := "bash",
    Run := scripts ("scripts/" ++ id ++ ".sh"), Env := env }

/-- `checkoutStep` (lines 280-296): `sparse-checkout` is set only when the
pipeline has a non-nil sparse checkout list, and then always appends the
four manifest-discovery paths. -/
def Pipeline.checkoutStep (p : Pipeline) : JobStep :=
  match p.SparseCheckout with
  | none => { Name := "Checkout", Uses := "actions/checkout@v4" }
  | some paths =>
    { Name := "Checkout", Uses := "actions/checkout@v4",
      With := envInsert "sparse-checkout"
        (String.intercalate "\n"
          (paths ++ ["dagger.json", ".dagger", "dagger", "ci"])) emptyEnv }

def Pipeline.warmEngineStep (p : Pipeline) (scripts : String → String) : JobStep :=
  bashStep scripts "warm-engine" emptyEnv

def Pipeline.installDaggerStep (p : Pipeline) (scripts : String → String) : JobStep :=
  bashStep scripts "install-dagger"
    (envInsert "DAGGER_VERSION" p.Settings.DaggerVersion emptyEnv)

/-- The fixed list of github context keys mirrored into the environment
(src/unnamed/part_004, lines 18-136; identical list in the workflow module
of the same version). -/
def githubContextKeys : List String :=
  ["action", "action_path", "action_ref", "action_repository", "action_status",
   "actor", "actor_id", "api_url", "base_ref", "env", "event_name",
   "event_path", "graphql_url", "head_ref", "job", "path", "ref", "ref_name",
   "ref_protected", "ref_type", "repository", "repository_id",
   "repository_owner", "repository_owner_id", "repositoryUrl",
   "retention_days", "run_id", "run_number", "run_attempt", "secret_source",
   "server_url", "sha", "token", "triggering_actor", "workflow",
   "workflow_ref", "workflow_sha", "workspace"]

/-- `callDaggerStep` (src/unnamed/part_003, lines 308-338): builds the env
map by successive insertion — COMMAND, declared secrets in order, module,
cloud tokens, github context mirrors — then wraps it in the `exec` step. -/
def Pipeline.callDaggerStep (p : Pipeline) (scripts : String → String) : JobStep :=
  let env := envInsert "COMMAND" ("dagger call -q " ++ p.Command) emptyEnv
  let env := p.Secrets.foldl (fun m s => envInsert s (secretRef s) m) env
  let env := if p.Module ≠ "" then envInsert "DAGGER_MODULE" p.Module env else env
  let env :=
    if !p.Settings.NoTraces then
      if p.Settings.PublicToken ≠ "" then
        envInsert "_EXPERIMENTAL_DAGGER_CLOUD_TOKEN" p.Settings.PublicToken
          (envInsert "DAGGER_CLOUD_TOKEN" p.Settings.PublicToken env)
      else
        envInsert "_EXPERIMENTAL_DAGGER_CLOUD_TOKEN" (secretRef "DAGGER_CLOUD_TOKEN")
          (envInsert "DAGGER_CLOUD_TOKEN" (secretRef "DAGGER_CLOUD_TOKEN") env)
    else env
  let env := githubContextKeys.foldl
    (fun m key => envInsert ("GITHUB_" ++ strToUpper key) (githubRef key) m) env
  bashStep scripts "exec" env

/-- `stopEngineStep` (lines 340-342): passes the full relative path as the
step id (so `bashStep` derives the doubled path `scripts/scripts/stop-engine.sh.sh`;
modelled faithfully). -/
def Pipeline.stopEngineStep (p : Pipeline) (scripts : String → String) : JobStep :=
  bashStep scripts "scripts/stop-engine.sh" emptyEnv

/-- `asWorkflow` (src/unnamed/part_003, lines 220-244). -/
def Pipeline.asWorkflow (p : Pipeline) (scripts : String → String) : Workflow :=
  let steps := [p.checkoutStep, p.installDaggerStep scripts,
                p.warmEngineStep scripts, p.callDaggerStep scripts]
  let steps := if p.Settings.StopEngine then steps ++ [p.stopEngineStep scripts] else steps
  { Name := p.Name,
    On := noTriggers,
    Jobs := [(jobID p.Name,
      { RunsOn := p.Settings.Runner,
        Steps := steps,
        Outputs := [("stdout", "$\x7b\x7b steps.exec.outputs.stdout \x7d\x7d"),
                    ("stderr", "$\x7b\x7b steps.exec.outputs.stderr \x7d\x7d")] })] }

/-! ## Triggers and the Gha aggregator (src/unnamed/part_003, lines 55-127;
src/on-push.go; src/on-dispatch.go; src/on-issue-comment.go) -/

structure PushTrigger where
  Event : PushEvent
  Pipeline : Pipeline

structure PullRequestTrigger where
  Event : PullRequestEvent
  Pipeline : Pipeline

structure DispatchTrigger where
  Event : WorkflowDispatchEvent
  Pipeline : Pipeline

structure IssueCommentTrigger where
  Event : IssueCommentEvent
  Pipeline : Pipeline

structure Gha where
  PushTriggers : List PushTrigger
  PullRequestTriggers : List PullRequestTrigger
  DispatchTriggers : List DispatchTrigger
  IssueCommentTriggers : List IssueCommentTrigger
  Settings : Settings

/-- `New` (src/unnamed/part_003, lines 20-53). -/
def Gha.New (noTraces : Bool) (publicToken daggerVersion : String)
    (stopEngine asJson : Bool) (runner : String) : Gha :=
  { PushTriggers := [], PullRequestTriggers := [], DispatchTriggers := [],
    IssueCommentTriggers := [],
    Settings := { PublicToken := publicToken, DaggerVersion := daggerVersion,
                  NoTraces := noTraces, StopEngine := stopEngine,
                  AsJson := asJson, Runner := runner } }

/-- `New` with every optional argument left at its declared default
(`daggerVersion="latest"`, `runner="ubuntu-latest"`, booleans false,
`publicToken=""`). -/
def defaultGha : Gha := Gha.New false "" "latest" false false "ubuntu-latest"

/-- `Gha.pipeline` (src/unnamed/part_003, lines 129-153): snapshot the
aggregator settings into a new pipeline, overriding the runner if the
per-pipeline runner is nonempty. -/
def Gha.pipeline (m : Gha) (name command module runner : String)
    (secrets : List String) (sparseCheckout : Option (List String)) : Pipeline :=
  let p : Pipeline :=
    { Name := name, Command := command, Module := module, Secrets := secrets,
      SparseCheckout := sparseCheckout, Settings := m.Settings }
  if runner ≠ "" then { p with Settings := { p.Settings with Runner := runner } } else p

/-- `OnPush` (src/on-push.go, lines 6-46): append a push trigger carrying a
freshly built pipeline. No validation and no lookup of existing pipelines
is performed. -/
def Gha.OnPush (m : Gha) (name command module : String)
    (secrets branches tags paths : List String) (runner : String)
    (sparseCheckout : Option (List String)) : Gha :=
  { m with PushTriggers := m.PushTriggers ++
      [{ Event := { Branches := branches, Tags := tags, Paths := paths },
         Pipeline := m.pipeline name command module runner secrets sparseCheckout }] }

/-- `Workflow.Config` (workflow module, `Config` method): emits the file
`.github/workflows/<filename>`. Serialization (YAML by default, JSON when
`asJson`, preceded by the generated-file header) is not modelled: the file
is represented by its path and its workflow document. -/
def Workflow.Config (w : Workflow) (filename : String) (asJson : Bool) :
    String × Workflow :=
  (".github/workflows/" ++ filename, w)

/-- `PushTrigger.asWorkflow` (src/on-push.go, lines 53-57). -/
def PushTrigger.asWorkflow (t : PushTrigger) (scripts : String → String) : Workflow :=
  let w := t.Pipeline.asWorkflow scripts
  { w with On := { noTriggers with Push := some t.Event } }

def PushTrigger.Config (t : PushTrigger) (filename : String) (asJson : Bool)
    (scripts : String → String) : String × Workflow :=
  (t.asWorkflow scripts).Config filename asJson

/-- `PullRequestTrigger.asWorkflow` (src/unnamed/part_008, lines 50-54). -/
def PullRequestTrigger.asWorkflow (t : PullRequestTrigger)
    (scripts : String → String) : Workflow :=
  let w := t.Pipeline.asWorkflow scripts
  { w with On := { noTriggers with PullRequest := some t.Event } }

def PullRequestTrigger.Config (t : PullRequestTrigger) (filename : String)
    (asJson : Bool) (scripts : String → String) : String × Workflow :=
  (t.asWorkflow scripts).Config filename asJson

/-- `DispatchTrigger.asWorkflow` (src/on-dispatch.go, lines 48-52). -/
def DispatchTrigger.asWorkflow (t : DispatchTrigger)
    (scripts : String → String) : Workflow :=
  let w := t.Pipeline.asWorkflow scripts
  { w with On := { noTriggers with WorkflowDispatch := some t.Event } }

def DispatchTrigger.Config (t : DispatchTrigger) (filename : String)
    (asJson : Bool) (scripts : String → String) : String × Workflow :=
  (t.asWorkflow scripts).Config filename asJson

/-- `IssueCommentTrigger.asWorkflow` (src/on-issue-comment.go, lines 50-54). -/
def IssueCommentTrigger.asWorkflow (t : IssueCommentTrigger)
    (scripts : String → String) : Workflow :=
  let w := t.Pipeline.asWorkflow scripts
  { w with On := { noTriggers with IssueComment := some t.Event } }

def IssueCommentTrigger.Config (t : IssueCommentTrigger) (filename : String)
    (asJson : Bool) (scripts : String → String) : String × Workflow :=
  (t.asWorkflow scripts).Config filename asJson

/-- `Gha.Config` (src/unnamed/part_003, lines 107-127): one file per
registered trigger, written in iteration order (push, pull-request,
dispatch, issue-comment), each named by the owning pipeline's
`workflowFilename`. The `filenamePrefix` parameter (Go name `prefix`) is
accepted but never used by the Go body; modelled faithfully. -/
def Gha.Config (m : Gha) (filenamePrefix : String) (scripts : String → String) :
    List (String × Workflow) :=
  (m.PushTriggers.map fun t =>
    t.Config (workflowFilename t.Pipeline.Name) m.Settings.AsJson scripts) ++
  (m.PullRequestTriggers.map fun t =>
    t.Config (workflowFilename t.Pipeline.Name) m.Settings.AsJson scripts) ++
  (m.DispatchTriggers.map fun t =>
    t.Config (workflowFilename t.Pipeline.Name) m.Settings.AsJson scripts) ++
  (m.IssueCommentTriggers.map fun t =>
    t.Config (workflowFilename t.Pipeline.Name) m.Settings.AsJson scripts)

/-- Overlay semantics of `Directory.WithDirectory` applied in sequence:
for a list of written files in write order, the effective content of a path
is the last file written to it. -/
def lookupLast : List (String × Workflow) → String → Option Workflow
  | [], _ => none
  | (p, w) :: rest, path =>
    match lookupLast rest path with
    | some r => some r
    | none => if p = path then some w else none

/-! ## Pull-request concurrency (claim C6)

No concurrency code exists in the evaluated sources; the feature is
described only by the spec (sections 4.1 and 4.3). -/

/-- Modelled from the spec: the `concurrency` block shape emitted into a
workflow document — group key plus the cancel-in-progress marker
(`cancelInProgress = false` means the key is omitted from the document). -/
structure Concurrency where
  group : String
  cancelInProgress : Bool

/-- Modelled from the spec: the concurrency group key, always
`$\x7b\x7b github.workflow \x7d\x7d-$\x7b\x7b github.head_ref || github.run_id \x7d\x7d`. -/
def concurrencyGroup : String :=
  "$\x7b\x7b github.workflow \x7d\x7d-$\x7b\x7b github.head_ref || github.run_id \x7d\x7d"

/-- Modelled from the spec: the concurrency block attached to a rendered
workflow as a function of the pull-request-concurrency setting. `allow` or
unset emits no block; `queue` emits the group without cancel-in-progress;
`preempt` emits the group with cancel-in-progress; any other value is a
fatal configuration error. -/
def pullRequestConcurrencyBlock (setting : String) :
    Except String (Option Concurrency) :=
  if setting = "" || setting = "allow" then Except.ok none
  else if setting = "queue" then
    Except.ok (some { group := concurrencyGroup, cancelInProgress := false })
  else if setting = "preempt" then
    Except.ok (some { group := concurrencyGroup, cancelInProgress := true })
  else Except.error ("invalid pull request concurrency setting: " ++ setting)

/-! ## Concrete configurations used by counterexamples and witnesses -/

def c4Gha : Gha :=
  defaultGha.OnPush "build" "build --source=." "" ["my-secret"] [] [] [] "" none

def c5Gha : Gha :=
  (defaultGha.OnPush "build" "build --source=." "" [] ["main"] [] [] "" none).OnPush
    "build" "build --source=." "" [] ["dev"] [] [] "" none

def c8Sparse : Pipeline :=
  defaultGha.pipeline "build" "build --source=." "" "" [] (some ["src", "tests"])

def c8Nil : Pipeline :=
  defaultGha.pipeline "build" "build --source=." "" "" [] none

/-! ## Claim theorems -/

/-- Claim C1: registering pipeline "build" with command "build --source=."
and a push trigger on branches ["main"] produces exactly one workflow file,
named build.yml, whose push trigger branches equal ["main"] and whose
execute step (id "exec", fourth step) carries env COMMAND equal to
"dagger call -q build --source=.". -/
theorem gha_c1 (scripts : String → String) :
    ((defaultGha.OnPush "build" "build --source=." "" [] ["main"] [] [] "" none).Config
        "" scripts).map Prod.fst = [".github/workflows/build.yml"] ∧
    workflowFilename "build" = "build.yml" ∧
    ((defaultGha.OnPush "build" "build --source=." "" [] ["main"] [] [] "" none).Config
        "" scripts).map (fun f => f.2.On.Push) =
      [some { Branches := ["main"], Tags := [], Paths := [] }] ∧
    ((defaultGha.OnPush "build" "build --source=." "" [] ["main"] [] [] "" none).Config
        "" scripts).map
        (fun f => f.2.Jobs.map fun j => j.2.Steps.map fun s => (s.ID, s.Env "COMMAND")) =
      [[[("", none), ("install-dagger", none), ("warm-engine", none),
         ("exec", some "dagger call -q build --source=.")]]] :=
  ⟨rfl, rfl, rfl, rfl⟩

/-- Claim C9 counterexample: attaching a push trigger for a pipeline name
that is not registered anywhere succeeds and grows the trigger list — no
"pipeline not found" error exists and the aggregator state does change. -/
theorem gha_c9_counterexample :
    defaultGha.PushTriggers.length = 0 ∧
    (defaultGha.OnPush "ghost" "build --source=." "" [] [] [] [] "" none).PushTriggers.length = 1 :=
  ⟨rfl, rfl⟩

/-- Claim C9 amended: trigger attachment performs no lookup of registered
pipelines and cannot fail: `OnPush` always appends one new push trigger
carrying a pipeline built inline from its own arguments, whatever the name. -/
theorem gha_c9_amended (g : Gha) (name command module runner : String)
    (secrets branches tags paths : List String) (sparse : Option (List String)) :
    (g.OnPush name command module secrets branches tags paths runner sparse).PushTriggers =
      g.PushTriggers ++
        [{ Event := { Branches := branches, Tags := tags, Paths := paths },
           Pipeline := g.pipeline name command module runner secrets sparse }] :=
  rfl

/-- Claim C5 counterexample: two `OnPush` calls for the same pipeline name
with branch lists ["main"] and ["dev"] yield two separate triggers and two
files at the same path; under the overlay ("last write wins") the effective
push trigger has branches ["dev"], not the concatenation ["main", "dev"]. -/
theorem gha_c5_counterexample :
    c5Gha.PushTriggers.length = 2 ∧
    (c5Gha.Config "" (fun _ => "")).map Prod.fst =
      [".github/workflows/build.yml", ".github/workflows/build.yml"] ∧
    (lookupLast (c5Gha.Config "" (fun _ => "")) ".github/workflows/build.yml").map
        (fun w => w.On.Push.map PushEvent.Branches) = some (some ["dev"]) ∧
    (["dev"] : List String) ≠ ["main"] ++ ["dev"] :=
  ⟨rfl, rfl, rfl, by decide⟩

/-- Claim C5 amended: calling `OnPush` twice with the same pipeline name
appends two independent push triggers (no merge of branch filters); the
export writes two workflows to the same filename, so the overlay keeps only
the second registration, whose trigger carries exactly the second branch
list — replacement by overwrite, not cumulative append. -/
theorem gha_c5_amended (b1 b2 : List String) (command : String)
    (scripts : String → String) :
    ((defaultGha.OnPush "build" command "" [] b1 [] [] "" none).OnPush
        "build" command "" [] b2 [] [] "" none).PushTriggers.length = 2 ∧
    (((defaultGha.OnPush "build" command "" [] b1 [] [] "" none).OnPush
        "build" command "" [] b2 [] [] "" none).Config "" scripts).map Prod.fst =
      [".github/workflows/build.yml", ".github/workflows/build.yml"] ∧
    (lookupLast (((defaultGha.OnPush "build" command "" [] b1 [] [] "" none).OnPush
        "build" command "" [] b2 [] [] "" none).Config "" scripts)
        ".github/workflows/build.yml").map (fun w => w.On.Push) =
      some (some { Branches := b2, Tags := [], Paths := [] }) :=
  ⟨rfl, rfl, rfl⟩

/-- Claim C4 counterexample: the name-based `OnPush` performs no secret
validation: registering with the invalid secret name "my-secret" succeeds,
and `Config` produces the workflow file, which even carries the invalid
secret in the execute step environment — nothing is rejected. -/
theorem gha_c4_counterexample :
    validSecretName "my-secret" = false ∧
    c4Gha.PushTriggers.length = 1 ∧
    (c4Gha.Config "" (fun _ => "")).map Prod.fst = [".github/workflows/build.yml"] ∧
    ((c4Gha.Config "" (fun _ => "")).map
        fun f => f.2.Jobs.map fun j => j.2.Steps.map fun s => s.Env "my-secret") =
      [[[none, none, none, some (secretRef "my-secret")]]] :=
  ⟨by decide, rfl, rfl, rfl⟩

/-- Any secret list containing an invalid name makes `validateSecretNames`
return the descriptive error for its first invalid entry. -/
theorem validateSecretNames_error_of_mem (secrets : List String) (bad : String)
    (hmem : bad ∈ secrets) (hbad : validSecretName bad = false) :
    ∃ b, validSecretName b = false ∧
      validateSecretNames secrets = Except.error (secretNameErrorMsg b) := by
  induction secrets with
  | nil => cases hmem
  | cons s rest ih =>
    by_cases hs : validSecretName s = true
    · have hr : bad ∈ rest := by
        rcases List.mem_cons.mp hmem with h | h
        · rw [h] at hbad; rw [hs] at hbad; cases hbad
        · exact h
      rcases ih hr with ⟨b, hb, hrec⟩
      exact ⟨b, hb, by simpa [validateSecretNames, hs] using hrec⟩
    · exact ⟨s, by simpa using hs, by simp [validateSecretNames, hs]⟩

/-- Claim C4 amended: a secrets list containing a name outside
`^[A-Za-z0-9_]+$` is rejected with the descriptive error by
`validateSecretNames` and by `Pipeline.Check` (before the external command
check is consulted); the name-based `OnPush` registration itself, however,
performs no validation and registers the trigger regardless, so rejection
happens only in the opt-in check, not before file production. -/
theorem gha_c4_amended (secrets : List String) (bad : String) (hmem : bad ∈ secrets)
    (hbad : validSecretName bad = false) :
    (∃ b, validSecretName b = false ∧
      validateSecretNames secrets = Except.error (secretNameErrorMsg b)) ∧
    (∀ p : Pipeline, p.Secrets = secrets → ∀ commandCheck,
      ∃ b, p.Check commandCheck = Except.error (secretNameErrorMsg b)) ∧
    (∀ g : Gha, ∀ name command module runner : String,
      ∀ branches tags paths : List String, ∀ sparse : Option (List String),
      (g.OnPush name command module secrets branches tags paths runner
        sparse).PushTriggers.length = g.PushTriggers.length + 1) := by
  refine ⟨validateSecretNames_error_of_mem secrets bad hmem hbad, ?_, ?_⟩
  · intro p hp commandCheck
    rcases validateSecretNames_error_of_mem secrets bad hmem hbad with ⟨b, hb, herr⟩
    exact ⟨b, by simp [Pipeline.Check, Pipeline.checkSecretNames, hp, herr]⟩
  · intro g name command module runner branches tags paths sparse
    simp [Gha.OnPush]

/-- Claim C4 amended, witness at the concrete list ["my-secret"]. -/
theorem gha_c4_amended_witness :
    ("my-secret" ∈ ["my-secret"]) ∧ validSecretName "my-secret" = false ∧
    (∃ b, validSecretName b = false ∧
      validateSecretNames ["my-secret"] = Except.error (secretNameErrorMsg b)) :=
  ⟨by decide, by decide,
    (gha_c4_amended ["my-secret"] "my-secret" (by decide) (by decide)).1⟩

/-- Claim C8 counterexample: a pipeline with no sparse checkout configured
(nil list) has a checkout step with no `sparse-checkout` parameter at all —
the manifest-discovery paths are not present for every pipeline. -/
theorem gha_c8_counterexample :
    c8Nil.SparseCheckout = none ∧
    c8Nil.checkoutStep.Uses = "actions/checkout@v4" ∧
    c8Nil.checkoutStep.With "sparse-checkout" = none :=
  ⟨rfl, rfl, rfl⟩

/-- Claim C8 amended: whenever a sparse-checkout list is configured
(non-nil, possibly empty), the checkout step's `sparse-checkout` parameter
equals the caller paths followed by dagger.json, .dagger, dagger, ci,
newline-joined in that order; with no sparse checkout configured the
checkout step has no `with` parameters. -/
theorem gha_c8_amended (p : Pipeline) :
    (∀ paths, p.SparseCheckout = some paths →
      p.checkoutStep.With "sparse-checkout" =
        some (String.intercalate "\n"
          (paths ++ ["dagger.json", ".dagger", "dagger", "ci"]))) ∧
    (p.SparseCheckout = none → p.checkoutStep.With = emptyEnv) := by
  constructor
  · intro paths h
    simp [Pipeline.checkoutStep, h, envInsert]
  · intro h
    simp [Pipeline.checkoutStep, h]

/-- Claim C8 amended, witness at a pipeline with sparse paths
["src", "tests"]. -/
theorem gha_c8_amended_witness :
    c8Sparse.SparseCheckout = some ["src", "tests"] ∧
    c8Sparse.checkoutStep.With "sparse-checkout" =
      some (String.intercalate "\n"
        (["src", "tests"] ++ ["dagger.json", ".dagger", "dagger", "ci"])) :=
  ⟨rfl, (gha_c8_amended c8Sparse).1 ["src", "tests"] rfl⟩

/-- Claim C7: every rendered workflow has exactly one job, keyed by the
sanitized job ID, whose steps are exactly checkout, install-dagger,
warm-engine, exec — in that order — followed by the engine-stop step if and
only if the StopEngine setting is enabled; no other steps occur. -/
theorem gha_c7 (p : Pipeline) (scripts : String → String) :
    (p.asWorkflow scripts).Jobs.map (fun j => (j.1, j.2.Steps)) =
      [(jobID p.Name,
        if p.Settings.StopEngine then
          [p.checkoutStep, p.installDaggerStep scripts, p.warmEngineStep scripts,
           p.callDaggerStep scripts, p.stopEngineStep scripts]
        else
          [p.checkoutStep, p.installDaggerStep scripts, p.warmEngineStep scripts,
           p.callDaggerStep scripts])] ∧
    (p.asWorkflow scripts).Jobs.map (fun j => j.2.Steps.map fun s => s.ID) =
      [if p.Settings.StopEngine then
          ["", "install-dagger", "warm-engine", "exec", "scripts/stop-engine.sh"]
        else ["", "install-dagger", "warm-engine", "exec"]] := by
  cases h : p.Settings.StopEngine <;> cases hsc : p.SparseCheckout <;>
    simp [Pipeline.asWorkflow, Pipeline.checkoutStep, Pipeline.installDaggerStep,
      Pipeline.warmEngineStep, Pipeline.callDaggerStep, Pipeline.stopEngineStep,
      bashStep, h, hsc]

/-- Claim C6 (spec-modelled): a concurrency block is emitted iff the
pull-request-concurrency setting is "queue" or "preempt"; "allow" or unset
yields no block; "queue" yields the fixed group without cancel-in-progress
and "preempt" the same group with cancel-in-progress; any other value is a
configuration error. -/
theorem gha_c6 (setting : String) :
    ((∃ c, pullRequestConcurrencyBlock setting = Except.ok (some c)) ↔
      (setting = "queue" ∨ setting = "preempt")) ∧
    ((setting = "" ∨ setting = "allow") →
      pullRequestConcurrencyBlock setting = Except.ok none) ∧
    pullRequestConcurrencyBlock "queue" =
      Except.ok (some { group := concurrencyGroup, cancelInProgress := false }) ∧
    pullRequestConcurrencyBlock "preempt" =
      Except.ok (some { group := concurrencyGroup, cancelInProgress := true }) ∧
    ((setting ≠ "" ∧ setting ≠ "allow" ∧ setting ≠ "queue" ∧ setting ≠ "preempt") →
      pullRequestConcurrencyBlock setting =
        Except.error ("invalid pull request concurrency setting: " ++ setting)) := by
  refine ⟨?_, ?_, rfl, rfl, ?_⟩
  · by_cases h1 : setting = "" <;> by_cases h2 : setting = "allow" <;>
      by_cases h3 : setting = "queue" <;> by_cases h4 : setting = "preempt" <;>
      simp [pullRequestConcurrencyBlock, h1, h2, h3, h4]
  · intro h
    rcases h with h | h <;> simp [pullRequestConcurrencyBlock, h]
  · intro ⟨h1, h2, h3, h4⟩
    simp [pullRequestConcurrencyBlock, h1, h2, h3, h4]

/-- Claim C6, witness: "allow" emits no block and an unsupported value is a
configuration error. -/
theorem gha_c6_witness :
    pullRequestConcurrencyBlock "allow" = Except.ok none ∧
    pullRequestConcurrencyBlock "bogus" =
      Except.error ("invalid pull request concurrency setting: " ++ "bogus") :=
  ⟨(gha_c6 "allow").2.1 (Or.inr rfl),
    (gha_c6 "bogus").2.2.2.2 ⟨by decide, by decide, by decide, by decide⟩⟩

/-! ## Environment-map lookup lemmas (claim C10) -/

/-- Lookup after the secret-injection loop: a key in the secret list maps to
its secrets-context reference (later duplicates rewrite the same value);
other keys fall through to the map built so far. -/
theorem secretsFold_lookup (secrets : List String) (m : EnvMap) (k : String) :
    (secrets.foldl (fun m s => envInsert s (secretRef s) m) m) k =
      if k ∈ secrets then some (secretRef k) else m k := by
  induction secrets generalizing m with
  | nil => simp
  | cons s rest ih =>
    rw [List.foldl_cons, ih]
    by_cases hr : k ∈ rest
    · simp [hr, List.mem_cons]
    · by_cases hk : k = s
      · simp [hr, hk, envInsert, List.mem_cons]
      · simp [hr, hk, envInsert, List.mem_cons]

/-- Lookup after the github-context loop, for keys that are not one of the
mirrored `GITHUB_*` names: the loop does not touch them. -/
theorem githubFold_not_mem (l : List String) (m : EnvMap) (k : String)
    (h : ∀ key ∈ l, ¬k = "GITHUB_" ++ strToUpper key) :
    (l.foldl (fun m key =>
        envInsert ("GITHUB_" ++ strToUpper key) (githubRef key) m) m) k = m k := by
  induction l generalizing m with
  | nil => rfl
  | cons a t ih =>
    rw [List.foldl_cons, ih _ (fun key hk => h key (List.mem_cons_of_mem a hk))]
    simp [envInsert, h a (List.mem_cons_self a t)]

def c10Pipeline : Pipeline :=
  { Name := "n", Module := "", Command := "deploy",
    Secrets := ["COMMAND", "GITHUB_REF", "DAGGER_CLOUD_TOKEN"],
    SparseCheckout := none,
    Settings := { PublicToken := "tok", DaggerVersion := "latest",
                  NoTraces := false, StopEngine := false, AsJson := false,
                  Runner := "ubuntu-latest" } }

/-- Claim C10: the execute-step environment is one map built by successive
insertion (COMMAND, then secrets in order, then module, then the cloud
tokens, then the `GITHUB_*` mirrors), with later insertions overwriting
earlier ones: `GITHUB_REF` always ends up bound to the github context
reference even when declared as a secret; a secret named COMMAND replaces
the command string; with traces enabled and a public token configured, the
token injections overwrite a secret named `DAGGER_CLOUD_TOKEN`. -/
theorem gha_c10 (p : Pipeline) (scripts : String → String) :
    ((p.callDaggerStep scripts).Env "GITHUB_REF" = some (githubRef "ref")) ∧
    ("COMMAND" ∈ p.Secrets →
      (p.callDaggerStep scripts).Env "COMMAND" = some (secretRef "COMMAND")) ∧
    ("COMMAND" ∉ p.Secrets →
      (p.callDaggerStep scripts).Env "COMMAND" =
        some ("dagger call -q " ++ p.Command)) ∧
    (p.Settings.NoTraces = false → p.Settings.PublicToken ≠ "" →
      (p.callDaggerStep scripts).Env "DAGGER_CLOUD_TOKEN" =
          some p.Settings.PublicToken ∧
        (p.callDaggerStep scripts).Env "_EXPERIMENTAL_DAGGER_CLOUD_TOKEN" =
          some p.Settings.PublicToken) := by
  refine ⟨rfl, ?_, ?_, ?_⟩
  · intro hmem
    simp only [Pipeline.callDaggerStep, bashStep]
    rw [githubFold_not_mem _ _ _ (by decide)]
    by_cases hnt : p.Settings.NoTraces <;> by_cases hpt : p.Settings.PublicToken = "" <;>
      by_cases hm : p.Module = "" <;>
      simp [hnt, hpt, hm, envInsert, secretsFold_lookup, hmem]
  · intro hmem
    simp only [Pipeline.callDaggerStep, bashStep]
    rw [githubFold_not_mem _ _ _ (by decide)]
    by_cases hnt : p.Settings.NoTraces <;> by_cases hpt : p.Settings.PublicToken = "" <;>
      by_cases hm : p.Module = "" <;>
      simp [hnt, hpt, hm, envInsert, secretsFold_lookup, hmem]
  · intro hnt hpt
    constructor <;>
    · simp only [Pipeline.callDaggerStep, bashStep]
      rw [githubFold_not_mem _ _ _ (by decide)]
      simp [hnt, hpt, envInsert]

/-- Claim C10, witness: a pipeline declaring the colliding secrets COMMAND,
GITHUB_REF and DAGGER_CLOUD_TOKEN with a public token configured. -/
theorem gha_c10_witness :
    ("COMMAND" ∈ c10Pipeline.Secrets) ∧
    c10Pipeline.Settings.NoTraces = false ∧
    c10Pipeline.Settings.PublicToken ≠ "" ∧
    (c10Pipeline.callDaggerStep (fun _ => "")).Env "COMMAND" =
      some (secretRef "COMMAND") ∧
    (c10Pipeline.callDaggerStep (fun _ => "")).Env "GITHUB_REF" =
      some (githubRef "ref") ∧
    (c10Pipeline.callDaggerStep (fun _ => "")).Env "DAGGER_CLOUD_TOKEN" =
      some c10Pipeline.Settings.PublicToken :=
  ⟨by decide, rfl, by decide,
   (gha_c10 c10Pipeline (fun _ => "")).2.1 (by decide),
   (gha_c10 c10Pipeline (fun _ => "")).1,
   ((gha_c10 c10Pipeline (fun _ => "")).2.2.2 rfl (by decide)).1⟩

/-! ## Sanitizer grammar lemmas (claim C2) -/

/-- `Char.ofNat` round-trips through `toNat` below the surrogate range. -/
theorem toNat_ofNat_small (n : Nat) (h : n < 55296) : (Char.ofNat n).toNat = n := by
  have hv : n.isValidChar := Or.inl h
  simp [Char.ofNat, hv]
  rfl

/-- Lowercasing an alphanumeric character lands in `[a-z0-9]`. -/
theorem isSlugChar_goToLower (c : Char) (h : isAlnumChar c = true) :
    isSlugChar (goToLower c) = true := by
  by_cases hu : isUpperAZ c = true
  · have hr : 65 ≤ c.toNat ∧ c.toNat ≤ 90 := by
      simpa [isUpperAZ, Bool.and_eq_true, decide_eq_true_eq] using hu
    have h32 : (Char.ofNat (c.toNat + 32)).toNat = c.toNat + 32 :=
      toNat_ofNat_small _ (by omega)
    simp only [goToLower, hu, if_true]
    simp only [isSlugChar, h32, Bool.or_eq_true, Bool.and_eq_true, decide_eq_true_eq]
    omega
  · have hval := h
    simp only [isAlnumChar, isLowerAZ, isUpperAZ, isDigit09, Bool.or_eq_true,
      Bool.and_eq_true, decide_eq_true_eq] at hval
    have hnu : ¬(65 ≤ c.toNat ∧ c.toNat ≤ 90) := by
      simpa [isUpperAZ, Bool.and_eq_true, decide_eq_true_eq] using hu
    have heq : goToLower c = c := by simp [goToLower, hu]
    rw [heq]
    simp only [isSlugChar, Bool.or_eq_true, Bool.and_eq_true, decide_eq_true_eq]
    omega

/-- A `[a-z0-9]` character is not a hyphen. -/
theorem slug_not_hyphen (c : Char) (h : isSlugChar c = true) : isHyphen c = false := by
  cases hh : isHyphen c with
  | false => rfl
  | true =>
    have hc : c = '-' := by simpa [isHyphen] using hh
    subst hc
    exact absurd h (by decide)

/-- Every character of the collapsed string is alphanumeric or a hyphen. -/
theorem collapse_valid : ∀ (l : List Char) (b : Bool) (c : Char),
    c ∈ collapseNonSlug b l → isSlugChar c = true ∨ c = '-' := by
  intro l
  induction l with
  | nil => intro b c hc; simp [collapseNonSlug] at hc
  | cons d rest ih =>
    intro b c hc
    by_cases hd : isSlugChar d = true
    · simp only [collapseNonSlug, hd, if_true] at hc
      rcases List.mem_cons.mp hc with rfl | hc
      exacts [Or.inl hd, ih false c hc]
    · cases b with
      | true =>
        simp only [collapseNonSlug, hd, if_false, if_true] at hc
        exact ih true c hc
      | false =>
        simp only [collapseNonSlug, hd, if_false] at hc
        rcases List.mem_cons.mp hc with rfl | hc
        exacts [Or.inr rfl, ih true c hc]

/-- Alphanumeric characters of the input survive the collapse. -/
theorem collapse_mem : ∀ (l : List Char) (b : Bool) (c : Char),
    isSlugChar c = true → c ∈ l → c ∈ collapseNonSlug b l := by
  intro l
  induction l with
  | nil => intro b c _ hc; cases hc
  | cons d rest ih =>
    intro b c hsc hc
    by_cases hd : isSlugChar d = true
    · simp only [collapseNonSlug, hd, if_true]
      rcases List.mem_cons.mp hc with rfl | hc
      · exact List.mem_cons_self _ _
      · exact List.mem_cons_of_mem _ (ih false c hsc hc)
    · have hcr : c ∈ rest := by
        rcases List.mem_cons.mp hc with rfl | hc
        · exact absurd hsc hd
        · exact hc
      cases b with
      | true =>
        simp only [collapseNonSlug, hd, if_false, if_true]
        exact ih true c hsc hcr
      | false =>
        simp only [collapseNonSlug, hd, if_false]
        exact List.mem_cons_of_mem _ (ih true c hsc hcr)

/-- An element that fails the predicate survives `dropWhile`. -/
theorem mem_dropWhile_of_not {α : Type} (p : α → Bool) :
    ∀ (l : List α) (c : α), c ∈ l → p c = false → c ∈ l.dropWhile p := by
  intro l
  induction l with
  | nil => intro c hc _; cases hc
  | cons d rest ih =>
    intro c hc hpc
    by_cases hd : p d = true
    · rw [List.dropWhile_cons_of_pos hd]
      rcases List.mem_cons.mp hc with rfl | hmem
      · rw [hpc] at hd; cases hd
      · exact ih c hmem hpc
    · rw [List.dropWhile_cons_of_neg hd]
      exact hc

/-- `dropWhile` only removes elements. -/
theorem mem_of_mem_dropWhile {α : Type} (p : α → Bool) (l : List α) (c : α)
    (hc : c ∈ l.dropWhile p) : c ∈ l :=
  (List.dropWhile_sublist _).subset hc

/-- A non-hyphen element of the input survives the two-sided trim. -/
theorem mem_trimHyphens (l : List Char) (c : Char) (hc : c ∈ l)
    (hnh : isHyphen c = false) : c ∈ trimHyphens l := by
  unfold trimHyphens dropLeadingHyphens
  apply List.mem_reverse.mpr
  apply mem_dropWhile_of_not _ _ _ _ hnh
  apply List.mem_reverse.mpr
  exact mem_dropWhile_of_not _ _ _ hc hnh

/-- The trim only removes elements. -/
theorem trimHyphens_subset (l : List Char) (c : Char) (hc : c ∈ trimHyphens l) :
    c ∈ l := by
  unfold trimHyphens dropLeadingHyphens at hc
  exact mem_of_mem_dropWhile _ _ _
    (List.mem_reverse.mp (mem_of_mem_dropWhile _ _ _ (List.mem_reverse.mp hc)))

/-- Every character of a slug is `[a-z0-9]` or a hyphen. -/
theorem slugify_valid (name : String) (c : Char) (hc : c ∈ slugify name) :
    isSlugChar c = true ∨ c = '-' :=
  collapse_valid _ false c (trimHyphens_subset _ c hc)

/-- A name containing an alphanumeric character has a nonempty slug. -/
theorem slugify_ne_nil (name : String) (h : name.data.any isAlnumChar = true) :
    slugify name ≠ [] := by
  obtain ⟨c, hc, hcal⟩ := List.any_eq_true.mp h
  have h1 : goToLower c ∈ name.data.map goToLower := List.mem_map_of_mem _ hc
  have h2 : isSlugChar (goToLower c) = true := isSlugChar_goToLower c hcal
  have h3 : goToLower c ∈ collapseNonSlug false (name.data.map goToLower) :=
    collapse_mem _ false _ h2 h1
  have h4 : goToLower c ∈ slugify name :=
    mem_trimHyphens _ _ h3 (slug_not_hyphen _ h2)
  exact List.ne_nil_of_mem h4

/-- A name with an alphanumeric character yields a workflow filename inside
the grammar `^[a-z0-9-]+\.yml$`. -/
theorem workflowFilename_grammar_of_alnum (name : String)
    (h : name.data.any isAlnumChar = true) :
    matchesFilenameGrammar (workflowFilename name) = true := by
  have hdata : (workflowFilename name).data =
      slugify name ++ ('.' :: 'y' :: 'm' :: 'l' :: []) := by
    simp only [workflowFilename, String.data_append]
  have hlen : 0 < (slugify name).length :=
    List.length_pos.mpr (slugify_ne_nil name h)
  have hsub : (slugify name ++ ('.' :: 'y' :: 'm' :: 'l' :: [])).length - 4 =
      (slugify name).length := by
    simp [List.length_append]
  have h5 : 5 ≤ (slugify name ++ ('.' :: 'y' :: 'm' :: 'l' :: [])).length := by
    simp only [List.length_append, List.length_cons, List.length_nil]
    omega
  simp only [matchesFilenameGrammar]
  rw [hdata, hsub, List.drop_left, List.take_left]
  simp only [h5, decide_True, List.all_eq_true, Bool.and_eq_true,
    decide_eq_true_eq, and_true, true_and, eq_self_iff_true]
  intro x hx
  rcases slugify_valid name x hx with hs | hs <;> simp [hs]

/-- Every character surviving the job-ID filter is in `[a-zA-Z0-9_-]`. -/
theorem jobIDStep2_all (name : String) :
    ∀ x ∈ jobIDStep2 name, isJobChar x = true := by
  intro x hx
  exact List.of_mem_filter hx

/-- An alphanumeric character of the name survives into the filtered id. -/
theorem jobIDStep2_mem (name : String) (c : Char) (hc : c ∈ name.data)
    (hcal : isAlnumChar c = true) : c ∈ jobIDStep2 name := by
  have hne : ¬(c = ' ') := by
    intro he
    rw [he] at hcal
    exact absurd hcal (by decide)
  have h0 : c ∈ jobIDStep1 name := by
    unfold jobIDStep1
    have hfix : (if c = ' ' then '-' else c) = c := if_neg hne
    exact hfix ▸ List.mem_map_of_mem _ hc
  exact List.mem_filter.mpr ⟨h0, by simp [isJobChar, hcal]⟩

/-- Once the filtered id is nonempty, the prefixing step yields a head in
`[A-Za-z_]` and a tail of job-ID characters. -/
theorem jobIDStep3_decomp (name : String) (hne : jobIDStep2 name ≠ []) :
    ∃ d t, jobIDStep3 name = d :: t ∧ isJobStartChar d = true ∧
      ∀ x ∈ t, isJobChar x = true := by
  obtain ⟨d, t, hdt⟩ := List.exists_cons_of_ne_nil hne
  unfold jobIDStep3
  rw [hdt]
  by_cases hv : startViolation (d :: t) = true
  · rw [if_pos hv]
    refine ⟨'_', d :: t, rfl, by decide, ?_⟩
    intro x hx
    exact jobIDStep2_all name x (hdt ▸ hx)
  · rw [if_neg hv]
    have hd : isJobStartChar d = true := by
      simpa [startViolation] using hv
    refine ⟨d, t, rfl, hd, ?_⟩
    intro x hx
    exact jobIDStep2_all name x (hdt ▸ List.mem_cons_of_mem d hx)

/-- Grammar check for an explicitly decomposed job ID. -/
theorem matchesJobIDGrammar_mk (d : Char) (t : List Char)
    (hd : isJobStartChar d = true) (ht : ∀ x ∈ t, isJobChar x = true)
    (hlen : t.length ≤ 98) : matchesJobIDGrammar (String.mk (d :: t)) = true := by
  show (isJobStartChar d && t.all isJobChar && decide (t.length ≤ 98)) = true
  simp [hd, hlen, List.all_eq_true]
  intro x hx
  exact ht x hx

/-- A name with an alphanumeric character yields a job ID inside the
grammar `^[A-Za-z_][A-Za-z0-9_-]\x7b0,98\x7d$`. -/
theorem jobID_grammar_of_alnum (name : String)
    (h : name.data.any isAlnumChar = true) :
    matchesJobIDGrammar (jobID name) = true := by
  obtain ⟨c, hc, hcal⟩ := List.any_eq_true.mp h
  have hne : jobIDStep2 name ≠ [] :=
    List.ne_nil_of_mem (jobIDStep2_mem name c hc hcal)
  obtain ⟨d, t, hdt, hd, ht⟩ := jobIDStep3_decomp name hne
  unfold jobID
  rw [hdt]
  by_cases hlen : (d :: t).length > 99
  · rw [if_pos hlen]
    have htake : (d :: t).take 99 = d :: t.take 98 := rfl
    rw [htake]
    refine matchesJobIDGrammar_mk d (t.take 98) hd ?_ ?_
    · intro x hx
      exact ht x (List.take_subset _ _ hx)
    · exact le_trans (List.length_take_le _ _) (by omega)
  · rw [if_neg hlen]
    refine matchesJobIDGrammar_mk d t hd ht ?_
    simp only [List.length_cons, Nat.not_lt] at hlen
    omega

/-- Claim C2 counterexample: the name "!" consists of one punctuation
character; its workflow filename is ".yml" (empty base, outside
`^[a-z0-9-]+\.yml$`) and its job ID is the empty string (outside
`^[A-Za-z_][A-Za-z0-9_-]\x7b0,98\x7d$`). -/
theorem gha_c2_counterexample :
    ('!' ∈ ("!" : String).data) ∧ isAlnumChar '!' = false ∧
    workflowFilename "!" = ".yml" ∧ jobID "!" = "" ∧
    matchesFilenameGrammar (workflowFilename "!") = false ∧
    matchesJobIDGrammar (jobID "!") = false := by
  decide

/-- Claim C2 amended: for every pipeline name that contains at least one
ASCII alphanumeric character (in particular any name mixing alphanumerics
with spaces or punctuation), `workflowFilename` matches
`^[a-z0-9-]+\.yml$` and `jobID` matches `^[A-Za-z_][A-Za-z0-9_-]\x7b0,98\x7d$`.
Without such a character the grammars are not guaranteed: the name "!"
breaks both (see the counterexample), while for example `jobID " "` is the
grammar-conforming "_-" even though `workflowFilename " "` is ".yml". -/
theorem gha_c2_amended (name : String) (h : name.data.any isAlnumChar = true) :
    matchesFilenameGrammar (workflowFilename name) = true ∧
    matchesJobIDGrammar (jobID name) = true :=
  ⟨workflowFilename_grammar_of_alnum name h, jobID_grammar_of_alnum name h⟩

/-- Claim C2 amended, witness at the name "My Pipeline (v2)!" which
contains spaces, punctuation and alphanumerics. -/
theorem gha_c2_amended_witness :
    ("My Pipeline (v2)!".data.any isAlnumChar = true) ∧
    (matchesFilenameGrammar (workflowFilename "My Pipeline (v2)!") = true ∧
      matchesJobIDGrammar (jobID "My Pipeline (v2)!") = true) :=
  ⟨by decide, gha_c2_amended "My Pipeline (v2)!" (by decide)⟩

/-! ## Slug normal form and idempotence (claim C3) -/

/-- No two adjacent hyphens. -/
def noDoubleHyphen : List Char → Bool
  | [] => true
  | [_] => true
  | a :: b :: t => !(isHyphen a && isHyphen b) && noDoubleHyphen (b :: t)

/-- Empty or starting with a non-hyphen. -/
def headNotHyphen : List Char → Bool
  | [] => true
  | c :: _ => !isHyphen c

theorem noDouble_tail (d : Char) (t : List Char)
    (h : noDoubleHyphen (d :: t) = true) : noDoubleHyphen t = true := by
  cases t with
  | nil => rfl
  | cons b t' =>
    exact ((Bool.and_eq_true _ _).mp h).2

theorem noDouble_head_of_hyphen (rest : List Char)
    (h : noDoubleHyphen ('-' :: rest) = true) : headNotHyphen rest = true := by
  cases rest with
  | nil => rfl
  | cons x t =>
    have h1 := ((Bool.and_eq_true _ _).mp h).1
    simp only [headNotHyphen]
    simp only [isHyphen] at h1 ⊢
    simpa using h1

theorem noDouble_cons_of_not (c : Char) (X : List Char) (hc : isHyphen c = false)
    (hX : noDoubleHyphen X = true) : noDoubleHyphen (c :: X) = true := by
  cases X with
  | nil => rfl
  | cons x t => simp [noDoubleHyphen, hc, hX]

theorem noDouble_cons_of_headNot (X : List Char) (hX : headNotHyphen X = true)
    (hn : noDoubleHyphen X = true) : noDoubleHyphen ('-' :: X) = true := by
  cases X with
  | nil => rfl
  | cons x t =>
    have hx : isHyphen x = false := by simpa [headNotHyphen] using hX
    simp [noDoubleHyphen, hx, hn]

/-- The collapse never emits a leading hyphen while inside a run. -/
theorem collapse_true_headNot : ∀ l : List Char,
    headNotHyphen (collapseNonSlug true l) = true := by
  intro l
  induction l with
  | nil => rfl
  | cons d rest ih =>
    by_cases hd : isSlugChar d = true
    · simp only [collapseNonSlug, hd, if_true]
      simpa [headNotHyphen] using slug_not_hyphen d hd
    · simpa [collapseNonSlug, hd] using ih

/-- The collapse never emits two adjacent hyphens. -/
theorem collapse_noDouble : ∀ (l : List Char) (b : Bool),
    noDoubleHyphen (collapseNonSlug b l) = true := by
  intro l
  induction l with
  | nil => intro b; rfl
  | cons d rest ih =>
    intro b
    by_cases hd : isSlugChar d = true
    · simp only [collapseNonSlug, hd, if_true]
      exact noDouble_cons_of_not d _ (slug_not_hyphen d hd) (ih false)
    · cases b with
      | true => simpa [collapseNonSlug, hd] using ih true
      | false =>
        simp only [collapseNonSlug, hd, if_false]
        exact noDouble_cons_of_headNot _ (collapse_true_headNot rest) (ih true)

/-- The collapse is the identity on hyphen-normal strings. -/
theorem collapse_eq_self : ∀ (l : List Char) (b : Bool),
    (∀ c ∈ l, isSlugChar c = true ∨ c = '-') → noDoubleHyphen l = true →
    (b = true → headNotHyphen l = true) → collapseNonSlug b l = l := by
  intro l
  induction l with
  | nil => intro b _ _ _; rfl
  | cons d rest ih =>
    intro b hval hnd hhd
    have hd := hval d (List.mem_cons_self d rest)
    have hrest : ∀ c ∈ rest, isSlugChar c = true ∨ c = '-' :=
      fun c hc => hval c (List.mem_cons_of_mem d hc)
    rcases hd with hs | hs
    · simp only [collapseNonSlug, hs, if_true]
      rw [ih false hrest (noDouble_tail d rest hnd) (by intro hcon; cases hcon)]
    · subst hs
      cases b with
      | true =>
        exfalso
        have := hhd rfl
        simp [headNotHyphen, isHyphen] at this
      | false =>
        have hns : isSlugChar '-' = true ↔ False := by decide
        simp only [collapseNonSlug, (by decide : isSlugChar '-' = false), if_false]
        rw [ih true hrest (noDouble_tail _ rest hnd)
          (fun _ => noDouble_head_of_hyphen rest hnd)]
        simp

/-- Lowercasing is the identity on hyphen-normal strings. -/
theorem map_goToLower_eq_self (l : List Char)
    (h : ∀ c ∈ l, isSlugChar c = true ∨ c = '-') : l.map goToLower = l := by
  induction l with
  | nil => rfl
  | cons d rest ih =>
    have hd := h d (List.mem_cons_self d rest)
    have hnu : isUpperAZ d = false := by
      cases hu : isUpperAZ d with
      | false => rfl
      | true =>
        exfalso
        have h1 : 65 ≤ d.toNat ∧ d.toNat ≤ 90 := by
          simpa [isUpperAZ, Bool.and_eq_true, decide_eq_true_eq] using hu
        rcases hd with hs | hs
        · simp only [isSlugChar, Bool.or_eq_true, Bool.and_eq_true,
            decide_eq_true_eq] at hs
          omega
        · subst hs
          exact absurd h1 (by decide)
    have hfix : goToLower d = d := by simp [goToLower, hnu]
    rw [List.map_cons, hfix, ih (fun c hc => h c (List.mem_cons_of_mem d hc))]

theorem dropLeadingHyphens_eq_self (l : List Char) (h : headNotHyphen l = true) :
    dropLeadingHyphens l = l := by
  cases l with
  | nil => rfl
  | cons d t =>
    have hd : isHyphen d = false := by simpa [headNotHyphen] using h
    unfold dropLeadingHyphens
    rw [List.dropWhile_cons_of_neg (by simp [hd])]

theorem headNot_dropLeadingHyphens (l : List Char) :
    headNotHyphen (dropLeadingHyphens l) = true := by
  induction l with
  | nil => rfl
  | cons d t ih =>
    by_cases hd : isHyphen d = true
    · unfold dropLeadingHyphens at ih ⊢
      rw [List.dropWhile_cons_of_pos hd]
      exact ih
    · unfold dropLeadingHyphens
      rw [List.dropWhile_cons_of_neg hd]
      have : isHyphen d = false := Bool.eq_false_iff.mpr hd
      simp [headNotHyphen, this]

/-- The trim keeps a prefix of the leading-trimmed string. -/
theorem trim_decomp (l : List Char) :
    ∃ u, dropLeadingHyphens l = trimHyphens l ++ u := by
  obtain ⟨v, hv⟩ :=
    (List.dropWhile_suffix (l := (dropLeadingHyphens l).reverse) isHyphen)
  refine ⟨v.reverse, ?_⟩
  have h1 : (dropLeadingHyphens l).reverse.reverse = dropLeadingHyphens l :=
    List.reverse_reverse _
  calc dropLeadingHyphens l
      = (dropLeadingHyphens l).reverse.reverse := h1.symm
    _ = (v ++ List.dropWhile isHyphen (dropLeadingHyphens l).reverse).reverse := by
        rw [hv]
    _ = trimHyphens l ++ v.reverse := by
        rw [List.reverse_append]
        rfl

theorem noDouble_append_left : ∀ (x y : List Char),
    noDoubleHyphen (x ++ y) = true → noDoubleHyphen x = true := by
  intro x
  induction x with
  | nil => intro y _; rfl
  | cons a x' ih =>
    intro y hxy
    cases x' with
    | nil => rfl
    | cons b x'' =>
      rw [List.cons_append, List.cons_append] at hxy
      have h1 := ((Bool.and_eq_true _ _).mp hxy).1
      have h2 := ((Bool.and_eq_true _ _).mp hxy).2
      have h3 : noDoubleHyphen (b :: x'') = true :=
        ih y (by rw [List.cons_append]; exact h2)
      simp [noDoubleHyphen, h1, h3]

theorem headNot_append_left (x y : List Char)
    (h : headNotHyphen (x ++ y) = true) : headNotHyphen x = true := by
  cases x with
  | nil => rfl
  | cons a t => simpa [headNotHyphen] using h

theorem noDouble_dropLeadingHyphens (l : List Char)
    (h : noDoubleHyphen l = true) :
    noDoubleHyphen (dropLeadingHyphens l) = true := by
  induction l with
  | nil => exact h
  | cons d t ih =>
    by_cases hd : isHyphen d = true
    · unfold dropLeadingHyphens at ih ⊢
      rw [List.dropWhile_cons_of_pos hd]
      exact ih (noDouble_tail d t h)
    · unfold dropLeadingHyphens
      rw [List.dropWhile_cons_of_neg hd]
      exact h

theorem trim_eq_self (l : List Char) (h1 : headNotHyphen l = true)
    (h2 : headNotHyphen l.reverse = true) : trimHyphens l = l := by
  unfold trimHyphens
  rw [dropLeadingHyphens_eq_self l h1, dropLeadingHyphens_eq_self l.reverse h2,
    List.reverse_reverse]

/-- The slug is hyphen-normal: no adjacent hyphens. -/
theorem slugify_noDouble (name : String) :
    noDoubleHyphen (slugify name) = true := by
  obtain ⟨u, hu⟩ :=
    trim_decomp (collapseNonSlug false (name.data.map goToLower))
  have h1 : noDoubleHyphen
      (dropLeadingHyphens (collapseNonSlug false (name.data.map goToLower))) = true :=
    noDouble_dropLeadingHyphens _ (collapse_noDouble _ false)
  rw [hu] at h1
  exact noDouble_append_left _ u h1

/-- The slug has no leading hyphen. -/
theorem slugify_headNot (name : String) :
    headNotHyphen (slugify name) = true := by
  obtain ⟨u, hu⟩ :=
    trim_decomp (collapseNonSlug false (name.data.map goToLower))
  have h1 := headNot_dropLeadingHyphens
    (collapseNonSlug false (name.data.map goToLower))
  rw [hu] at h1
  exact headNot_append_left _ u h1

/-- The slug has no trailing hyphen. -/
theorem slugify_revHeadNot (name : String) :
    headNotHyphen (slugify name).reverse = true := by
  have h1 : (slugify name).reverse =
      dropLeadingHyphens ((dropLeadingHyphens
        (collapseNonSlug false (name.data.map goToLower))).reverse) := by
    unfold slugify trimHyphens
    rw [List.reverse_reverse]
  rw [h1]
  exact headNot_dropLeadingHyphens _

/-- The sanitization pipeline of `workflowFilename` (before the `.yml`
extension) is idempotent. -/
theorem slugify_idempotent (name : String) :
    slugify (String.mk (slugify name)) = slugify name := by
  have hvalid : ∀ c ∈ slugify name, isSlugChar c = true ∨ c = '-' :=
    fun c hc => slugify_valid name c hc
  have hmap : (String.mk (slugify name)).data.map goToLower = slugify name :=
    map_goToLower_eq_self _ hvalid
  show trimHyphens (collapseNonSlug false
    ((String.mk (slugify name)).data.map goToLower)) = slugify name
  rw [hmap]
  rw [collapse_eq_self (slugify name) false hvalid (slugify_noDouble name)
    (by intro hcon; cases hcon)]
  exact trim_eq_self _ (slugify_headNot name) (slugify_revHeadNot name)

/-- Claim C3 counterexample: `workflowFilename` is not idempotent; at the
name "build" it yields "build.yml", and reapplying it yields
"build-yml.yml" (the extension dot collapses to a hyphen). -/
theorem gha_c3_counterexample :
    workflowFilename "build" = "build.yml" ∧
    workflowFilename (workflowFilename "build") = "build-yml.yml" ∧
    workflowFilename (workflowFilename "build") ≠ workflowFilename "build" := by
  decide

/-- Claim C3 amended: `workflowFilename` itself is not idempotent (the `.`
of the appended `.yml` extension is collapsed to a hyphen on reapplication);
the sanitization it performs before appending the extension — lowercase,
collapse non-alphanumeric runs, trim hyphens — is idempotent: applying it to
its own output (as a string) returns that output unchanged. -/
theorem gha_c3_amended (name : String) :
    workflowFilename name = String.mk (slugify name) ++ ".yml" ∧
    slugify (String.mk (slugify name)) = slugify name :=
  ⟨rfl, slugify_idempotent name⟩
